import Mathlib

/-!
Verification of the Credential & Step-Up Authentication Core of the TD
repository against its design document.

The development shallowly embeds the relevant TypeScript sources:

* the auth helper module (PBKDF2 password hashing `hashPassword`,
  `verifyPassword`, JWT `generateToken` / `verifyToken`), and
* the admin OTP route `src/app/api/admin/otp/route.ts` (the OTP step-up
  state machine and the route-local SHA-256 `hashPassword`).

External cryptographic primitives (Web Crypto `deriveBits` for PBKDF2,
`digest` for SHA-256, jose's HMAC signature) are modelled as function
parameters: every theorem quantifies over them, so the results hold for
any choice of the primitive.  Byte sequences are `List Nat` (each element
a byte value), JavaScript strings are `String`, and the volatile OTP
`Map` is a function from identity to an optional entry.
-/

/-- One byte rendered the way `b.toString(16)` renders a natural number in
JavaScript: base-16 digits, lowercase, no leading zeros (a single `0` for
zero). -/
def natToHex (n : Nat) : List Char :=
  if _h : n < 16 then [Nat.digitChar n]
  else natToHex (n / 16) ++ [Nat.digitChar (n % 16)]
  decreasing_by
    exact Nat.div_lt_self (Nat.lt_of_lt_of_le (by norm_num) (Nat.le_of_not_lt _h)) (by norm_num)

/-- JavaScript `padStart(2, '0')`: left-pad a digit string to length two. -/
def pad2 (cs : List Char) : List Char :=
  if cs.length ≥ 2 then cs else List.replicate (2 - cs.length) '0' ++ cs

/-- `bytes.map(b => b.toString(16).padStart(2, '0')).join('')`, the hex
encoding used by both `hashPassword` implementations. -/
def hexEncodeChars : List Nat → List Char
  | [] => []
  | b :: bs => pad2 (natToHex b) ++ hexEncodeChars bs

theorem digitChar_eq_star_of_ge (n : Nat) (h : 16 ≤ n) : Nat.digitChar n = '*' := by
  have e0 : ¬ n = 0 := by omega
  have e1 : ¬ n = 1 := by omega
  have e2 : ¬ n = 2 := by omega
  have e3 : ¬ n = 3 := by omega
  have e4 : ¬ n = 4 := by omega
  have e5 : ¬ n = 5 := by omega
  have e6 : ¬ n = 6 := by omega
  have e7 : ¬ n = 7 := by omega
  have e8 : ¬ n = 8 := by omega
  have e9 : ¬ n = 9 := by omega
  have e10 : ¬ n = 10 := by omega
  have e11 : ¬ n = 11 := by omega
  have e12 : ¬ n = 12 := by omega
  have e13 : ¬ n = 13 := by omega
  have e14 : ¬ n = 14 := by omega
  have e15 : ¬ n = 15 := by omega
  simp [Nat.digitChar, e0, e1, e2, e3, e4, e5, e6, e7, e8, e9, e10, e11, e12,
    e13, e14, e15]

theorem digitChar_ne_dollar (n : Nat) : Nat.digitChar n ≠ '$' := by
  by_cases h : n < 16
  · interval_cases n <;> decide
  · rw [digitChar_eq_star_of_ge n (by omega)]; decide

theorem digitChar_ne_newline (n : Nat) : Nat.digitChar n ≠ '\n' := by
  by_cases h : n < 16
  · interval_cases n <;> decide
  · rw [digitChar_eq_star_of_ge n (by omega)]; decide

theorem natToHex_mem (n : Nat) :
    ∀ c ∈ natToHex n, ∃ m, c = Nat.digitChar m := by
  induction n using Nat.strong_induction_on with
  | _ n ih =>
    intro c hc
    rw [natToHex] at hc
    split at hc
    case isTrue h16 =>
      rcases List.mem_singleton.mp hc with rfl
      exact ⟨n, rfl⟩
    case isFalse h16 =>
      rcases List.mem_append.mp hc with h | h
      · exact ih (n / 16) (Nat.div_lt_self (by omega) (by norm_num)) c h
      · rcases List.mem_singleton.mp h with rfl
        exact ⟨n % 16, rfl⟩

theorem pad2_mem (cs : List Char) :
    ∀ c ∈ pad2 cs, c = '0' ∨ c ∈ cs := by
  intro c hc
  unfold pad2 at hc
  split at hc
  · exact Or.inr hc
  · rcases List.mem_append.mp hc with h | h
    · exact Or.inl (List.eq_of_mem_replicate h)
    · exact Or.inr h

theorem hexEncodeChars_mem (bs : List Nat) :
    ∀ c ∈ hexEncodeChars bs, ∃ m, c = Nat.digitChar m := by
  induction bs with
  | nil => intro c hc; simp [hexEncodeChars] at hc
  | cons b bs ih =>
    intro c hc
    rcases List.mem_append.mp hc with h | h
    · rcases pad2_mem _ c h with h0 | h0
      · exact ⟨0, h0⟩
      · exact natToHex_mem b c h0
    · exact ih c h

theorem hexEncodeChars_no_dollar (bs : List Nat) : '$' ∉ hexEncodeChars bs := by
  intro h
  rcases hexEncodeChars_mem bs _ h with ⟨m, hm⟩
  exact digitChar_ne_dollar m hm.symm

theorem natToHex_of_lt (n : Nat) (h : n < 16) : natToHex n = [Nat.digitChar n] := by
  rw [natToHex]; simp [h]

theorem natToHex_byte (b : Nat) (h : b < 256) :
    pad2 (natToHex b) = [Nat.digitChar (b / 16), Nat.digitChar (b % 16)] := by
  by_cases hb : b < 16
  · rw [natToHex_of_lt b hb]
    have h1 : b / 16 = 0 := Nat.div_eq_of_lt hb
    have h2 : b % 16 = b := Nat.mod_eq_of_lt hb
    rw [h1, h2]
    rfl
  · have hdiv : b / 16 < 16 := by omega
    rw [natToHex, dif_neg hb, natToHex_of_lt (b / 16) hdiv]
    rfl

theorem hexEncodeChars_cons (b : Nat) (bs : List Nat) :
    hexEncodeChars (b :: bs) = pad2 (natToHex b) ++ hexEncodeChars bs := rfl

theorem hexEncodeChars_byte_cons (b : Nat) (bs : List Nat) (h : b < 256) :
    hexEncodeChars (b :: bs)
      = Nat.digitChar (b / 16) :: Nat.digitChar (b % 16) :: hexEncodeChars bs := by
  rw [hexEncodeChars_cons, natToHex_byte b h]
  rfl

/-- JavaScript `s.split('$')` specialised to a single-character separator,
over the character list of the string: every maximal run between
separators becomes one part (empty parts included). -/
def splitOn (sep : Char) : List Char → List (List Char)
  | [] => [[]]
  | c :: cs =>
    if c = sep then [] :: splitOn sep cs
    else
      match splitOn sep cs with
      | [] => [[c]]
      | p :: ps => (c :: p) :: ps

theorem splitOn_ne_nil (sep : Char) (cs : List Char) : splitOn sep cs ≠ [] := by
  induction cs with
  | nil => simp [splitOn]
  | cons c cs ih =>
    by_cases h : c = sep
    · simp [splitOn, h]
    · simp only [splitOn, if_neg h]
      rcases hs : splitOn sep cs with _ | ⟨p, ps⟩
      · simp
      · simp

theorem splitOn_of_no_sep (sep : Char) (cs : List Char) (h : sep ∉ cs) :
    splitOn sep cs = [cs] := by
  induction cs with
  | nil => rfl
  | cons c cs ih =>
    have hc : c ≠ sep := fun hh => h (hh ▸ List.mem_cons_self c cs)
    have hcs : sep ∉ cs := fun hh => h (List.mem_cons_of_mem c hh)
    simp only [splitOn, if_neg hc, ih hcs]

theorem splitOn_append_sep (sep : Char) (xs ys : List Char) (h : sep ∉ xs) :
    splitOn sep (xs ++ sep :: ys) = xs :: splitOn sep ys := by
  induction xs with
  | nil => simp [splitOn]
  | cons x xs ih =>
    have hx : x ≠ sep := fun hh => h (hh ▸ List.mem_cons_self x xs)
    have hxs : sep ∉ xs := fun hh => h (List.mem_cons_of_mem x hh)
    have e : xs.append (sep :: ys) = xs ++ sep :: ys := rfl
    simp only [List.cons_append, splitOn, if_neg hx, e, ih hxs]

/-- The global regex match `saltHex.match(/.{2}/g)` from `verifyPassword`:
successive non-overlapping two-character matches, where `.` matches any
character except a newline; on a failed match the scan advances one
position.  A trailing unpaired character is dropped. -/
def matchPairs : List Char → List (Char × Char)
  | c1 :: c2 :: rest =>
    if c1 ≠ '\n' ∧ c2 ≠ '\n' then (c1, c2) :: matchPairs rest
    else matchPairs (c2 :: rest)
  | _ => []

/-- The numeric value `parseInt(⟨a, b⟩, 16)` of a two-character chunk, as it
lands in a `Uint8Array` cell: both characters hex digits gives the byte
value, a valid first digit alone gives its value, otherwise `NaN` which the
typed array stores as `0`.  (JavaScript's handling of whitespace, signs and
an `0x` prefix inside `parseInt` is not reproduced: the chunks fed to it by
`verifyPassword` that matter for the properties below consist of hex
digits.) -/
def hexDigitVal (c : Char) : Option Nat :=
  if '0' ≤ c ∧ c ≤ '9' then some (c.toNat - 48)
  else if 'a' ≤ c ∧ c ≤ 'f' then some (c.toNat - 87)
  else if 'A' ≤ c ∧ c ≤ 'F' then some (c.toNat - 55)
  else none

def parseHexPair (a b : Char) : Nat :=
  match hexDigitVal a, hexDigitVal b with
  | some x, some y => 16 * x + y
  | some x, none => x
  | none, _ => 0

/-- `new Uint8Array(saltHex.match(/.{2}/g)!.map(b => parseInt(b, 16)))`:
`none` models the thrown `TypeError` when the match is `null` (caught by
`verifyPassword`'s surrounding `try`). -/
def hexDecodePairs (cs : List Char) : Option (List Nat) :=
  match matchPairs cs with
  | [] => none
  | ps => some (ps.map fun p => parseHexPair p.1 p.2)

theorem hexDigitVal_digitChar (m : Nat) (h : m < 16) :
    hexDigitVal (Nat.digitChar m) = some m := by
  interval_cases m <;> decide

theorem parseHexPair_byte (b : Nat) (h : b < 256) :
    parseHexPair (Nat.digitChar (b / 16)) (Nat.digitChar (b % 16)) = b := by
  unfold parseHexPair
  rw [hexDigitVal_digitChar (b / 16) (by omega), hexDigitVal_digitChar (b % 16) (by omega)]
  simp
  omega

theorem matchPairs_hexEncode (bs : List Nat) (h : ∀ b ∈ bs, b < 256) :
    matchPairs (hexEncodeChars bs)
      = bs.map fun b => (Nat.digitChar (b / 16), Nat.digitChar (b % 16)) := by
  induction bs with
  | nil => rfl
  | cons b bs ih =>
    have hb : b < 256 := h b (List.mem_cons_self b bs)
    have hbs : ∀ x ∈ bs, x < 256 := fun x hx => h x (List.mem_cons_of_mem b hx)
    rw [hexEncodeChars_byte_cons b bs hb]
    unfold matchPairs
    rw [if_pos ⟨digitChar_ne_newline _, digitChar_ne_newline _⟩, ih hbs]
    rfl

theorem hexDecodePairs_hexEncode (bs : List Nat) (hne : bs ≠ [])
    (h : ∀ b ∈ bs, b < 256) : hexDecodePairs (hexEncodeChars bs) = some bs := by
  unfold hexDecodePairs
  rw [matchPairs_hexEncode bs h]
  rcases bs with _ | ⟨b, bs⟩
  · exact absurd rfl hne
  · simp only [List.map_cons, List.map_map]
    rw [parseHexPair_byte b (h b (List.mem_cons_self b bs))]
    refine congrArg (fun l => some (b :: l)) ?_
    calc List.map ((fun p => parseHexPair p.1 p.2) ∘
            fun b => (Nat.digitChar (b / 16), Nat.digitChar (b % 16))) bs
        = List.map id bs := List.map_congr_left
          (fun x hx => parseHexPair_byte x (h x (List.mem_cons_of_mem b hx)))
      _ = bs := List.map_id bs

theorem hexEncodeChars_ne_nil (b : Nat) (bs : List Nat) :
    hexEncodeChars (b :: bs) ≠ [] := by
  rw [hexEncodeChars_cons]
  intro hcontra
  rcases List.append_eq_nil.mp hcontra with ⟨h1, _⟩
  unfold pad2 at h1
  split at h1
  · rename_i hlen
    rw [h1] at hlen
    simp at hlen
  · rcases List.append_eq_nil.mp h1 with ⟨_, h3⟩
    have := natToHex_mem b
    rw [natToHex] at h3
    split at h3 <;> simp at h3

theorem hexEncodeChars_injOn (d1 d2 : List Nat) (h1 : ∀ b ∈ d1, b < 256)
    (h2 : ∀ b ∈ d2, b < 256) (hne : d1 ≠ [])
    (heq : hexEncodeChars d1 = hexEncodeChars d2) : d1 = d2 := by
  have hne2 : d2 ≠ [] := by
    rcases d2 with _ | ⟨b, bs⟩
    · rcases d1 with _ | ⟨a, as⟩
      · exact absurd rfl hne
      · exact absurd heq (hexEncodeChars_ne_nil a as)
    · simp
  have e1 := hexDecodePairs_hexEncode d1 hne h1
  have e2 := hexDecodePairs_hexEncode d2 hne2 h2
  rw [heq, e2] at e1
  exact (Option.some.inj e1).symm

/-- `new TextEncoder().encode(s)`: the UTF-8 bytes of a string (the byte
list underlying `String.toUTF8`). -/
def utf8Bytes (s : String) : List Nat :=
  (s.data.flatMap String.utf8EncodeChar).map fun b => b.toNat

/-- The PBKDF2 derivation pipeline of the auth module
(`importKey('raw', encode(password), 'PBKDF2') ∘ deriveBits`), abstracted:
arguments are the password's UTF-8 bytes, the salt bytes, the iteration
count and the requested bit length, the result is the derived key's bytes.
Every theorem below quantifies over this primitive. -/
def PBKDF2Fun : Type := List Nat → List Nat → Nat → Nat → List Nat

/-- `hashPassword` of the auth module: a fresh 16-byte random salt (passed
here as the `salt` argument, standing for `crypto.getRandomValues`), a key
derived by PBKDF2-HMAC-SHA256 with 100000 iterations and 256 bits, both
hex encoded and joined by a `$` separator. -/
def hashPassword (pbkdf2 : PBKDF2Fun) (salt : List Nat) (password : String) : String :=
  ⟨hexEncodeChars salt ++ '$' :: hexEncodeChars (pbkdf2 (utf8Bytes password) salt 100000 256)⟩

/-- `storedHash.startsWith('$2')`, the legacy bcrypt detection. -/
def startsWithBcrypt (cs : List Char) : Bool :=
  match cs with
  | c1 :: c2 :: _ => c1 == '$' && c2 == '2'
  | _ => false

/-- `verifyPassword` of the auth module.  The `try`/`catch` wrapper is
modelled by total branches returning `false` where the body would throw
(the only throw site is the non-null assertion on the regex match,
represented by `hexDecodePairs` returning `none`).  A JavaScript
destructuring `[saltHex, hashHex]` yields `undefined` for a missing second
part; `undefined` and the empty string are both falsy and the value is
used only behind that guard, so the missing part is folded into `[]`. -/
def verifyPassword (pbkdf2 : PBKDF2Fun) (password storedHash : String) : Bool :=
  if startsWithBcrypt storedHash.data then false
  else
    match splitOn '$' storedHash.data with
    | [] => false
    | saltHex :: rest =>
      let hashHex := rest.headD []
      if saltHex.isEmpty || hashHex.isEmpty then false
      else
        match hexDecodePairs saltHex with
        | none => false
        | some salt =>
          hexEncodeChars (pbkdf2 (utf8Bytes password) salt 100000 256) == hashHex

namespace OtpRoute

/-- The route-local `hashPassword` of `src/app/api/admin/otp/route.ts`:
the hex encoding of a plain SHA-256 digest of the password, with no salt
and no separator.  `digest` stands for `crypto.subtle.digest('SHA-256', ·)`
on the password's UTF-8 bytes. -/
def hashPassword (digest : List Nat → List Nat) (password : String) : String :=
  ⟨hexEncodeChars (digest (utf8Bytes password))⟩

end OtpRoute

namespace OtpRoute

/-- The value type of the route's `otpStore` map:
`{ otp: string; expires: number; verified: boolean }`.  `expires` is a
`Date.now()`-style millisecond timestamp. -/
structure OTPEntry where
  otp : String
  expires : Nat
  verified : Bool
deriving DecidableEq, Repr

/-- The volatile `otpStore : Map<string, OTPEntry>`, observationally: a
partial map from identity (email) to its entry. -/
def OTPStore : Type := String → Option OTPEntry

def storeGet (s : OTPStore) (k : String) : Option OTPEntry := s k

def storeSet (s : OTPStore) (k : String) (v : OTPEntry) : OTPStore :=
  fun k2 => if k2 = k then some v else s k2

def storeDelete (s : OTPStore) (k : String) : OTPStore :=
  fun k2 => if k2 = k then none else s k2

def emptyStore : OTPStore := fun _ => none

/-- `generateOTP`: `String(100000 + (array[0] % 900000))`, where `r`
stands for the random `Uint32` drawn from `crypto.getRandomValues`. -/
def generateOTP (r : Nat) : String := toString (100000 + r % 900000)

/-- The observable outcomes of the route's `POST` handler, one per distinct
response of the source (collapsing the HTTP envelope). -/
inductive OtpResult where
  /-- 400, `action`/`email` absent or `otp`/`newPassword` absent in
  `changePassword`. -/
  | missingFields
  /-- 400, `otp` absent in `verify`. -/
  | otpRequired
  /-- 404, identity not the hardcoded admin email or not present in either
  admin table. -/
  | notEligible
  /-- 400, `verify` with no stored challenge. -/
  | noChallenge
  /-- 400, challenge past `expires` (entry removed). -/
  | expired
  /-- 400, submitted code differs from the stored one. -/
  | codeMismatch
  /-- 400, `changePassword` with no stored challenge or `verified` still
  false. -/
  | notVerified
  | okRequested
  | okVerified
  | okChanged
deriving DecidableEq, Repr

/-- The hardcoded admin identity of the route. -/
def ADMIN_EMAIL : String := "info@tdlogistics.co"

/-- One credential-update `execute(...)` call issued by the
`changePassword` case, recorded as the target table and the written hash. -/
structure DBUpdate where
  table : String
  passwordHash : String
deriving DecidableEq, Repr

/-- The `request` action of the `POST` handler.  `adminFound` stands for
the outcome of the two `queryOne` lookups (users, then admin_users);
`code` stands for the freshly generated `generateOTP()` value.  JSON
fields that are absent behave exactly like the empty string throughout the
handler (both are falsy and compared only behind the falsy guards), so
inputs are plain strings with `""` standing for a missing field. -/
def otpRequest (now : Nat) (adminFound : Bool) (email code : String)
    (s : OTPStore) : OtpResult × OTPStore :=
  if email = "" then (.missingFields, s)
  else if email ≠ ADMIN_EMAIL then (.notEligible, s)
  else if adminFound = false then (.notEligible, s)
  else (.okRequested, storeSet s email ⟨code, now + 10 * 60 * 1000, false⟩)

/-- The `verify` action of the `POST` handler. -/
def otpVerify (now : Nat) (adminFound : Bool) (email otp : String)
    (s : OTPStore) : OtpResult × OTPStore :=
  if email = "" then (.missingFields, s)
  else if email ≠ ADMIN_EMAIL then (.notEligible, s)
  else if adminFound = false then (.notEligible, s)
  else if otp = "" then (.otpRequired, s)
  else
    match storeGet s email with
    | none => (.noChallenge, s)
    | some stored =>
      if now > stored.expires then (.expired, storeDelete s email)
      else if stored.otp ≠ otp then (.codeMismatch, s)
      else (.okVerified, storeSet s email ⟨stored.otp, stored.expires, true⟩)

/-- The `changePassword` action of the `POST` handler.  The third component
records the credential-update `execute` calls the handler issues, in
order. -/
def otpChangePassword (digest : List Nat → List Nat) (now : Nat)
    (adminFound : Bool) (email otp newPassword : String) (s : OTPStore) :
    OtpResult × OTPStore × List DBUpdate :=
  if email = "" then (.missingFields, s, [])
  else if email ≠ ADMIN_EMAIL then (.notEligible, s, [])
  else if adminFound = false then (.notEligible, s, [])
  else if otp = "" ∨ newPassword = "" then (.missingFields, s, [])
  else
    match storeGet s email with
    | none => (.notVerified, s, [])
    | some stored =>
      if stored.verified = false then (.notVerified, s, [])
      else if now > stored.expires then (.expired, storeDelete s email, [])
      else if stored.otp ≠ otp then (.codeMismatch, s, [])
      else
        let passwordHash := hashPassword digest newPassword
        (.okChanged, storeDelete s email,
          [⟨"users", passwordHash⟩, ⟨"admin_users", passwordHash⟩])

end OtpRoute

theorem toDigitsCore_ne_nil (fuel : Nat) :
    ∀ (n : Nat) (ds : List Char), ds ≠ [] ∨ 0 < fuel →
      Nat.toDigitsCore 10 fuel n ds ≠ [] := by
  induction fuel with
  | zero =>
    intro n ds h
    rcases h with h | h
    · exact h
    · exact absurd h (by omega)
  | succ fuel ih =>
    intro n ds _
    unfold Nat.toDigitsCore
    simp only []
    by_cases h0 : n / 10 = 0
    · rw [if_pos h0]; simp
    · rw [if_neg h0]
      exact ih (n / 10) (Nat.digitChar (n % 10) :: ds) (Or.inl (by simp))

theorem generateOTP_ne_empty (r : Nat) : OtpRoute.generateOTP r ≠ "" := by
  intro h
  have hd : (OtpRoute.generateOTP r).data = [] := congrArg String.data h
  have : Nat.toDigits 10 (100000 + r % 900000) = [] := hd
  exact toDigitsCore_ne_nil _ _ _ (Or.inr (by omega)) this

/-- The claims carried by a session token:
`{ id: number; email: string; role: 'admin'|'customer'|'partner'; name: string }`. -/
structure UserPayload where
  id : Nat
  email : String
  role : String
  userName : String
deriving DecidableEq, Repr

/-- Modelled from the spec: the JWT payload jose assembles for `SignJWT` —
the spread caller claims plus `setIssuedAt()`, `setExpirationTime('24h')`
and `setJti(crypto.randomUUID())`; jose's own encoding is not part of this
repository. -/
structure JWTPayload where
  user : UserPayload
  issuedAt : Nat
  expiresAt : Nat
  tokenId : String
deriving DecidableEq, Repr

/-- Modelled from the spec: a signed token as the compact structure of §6 —
a payload plus an HMAC-SHA256 signature over it; `mac` below stands for
the signature primitive keyed with the process-wide `JWT_SECRET`. -/
structure SignedToken where
  payload : JWTPayload
  sig : List Nat
deriving DecidableEq, Repr

/-- `TOKEN_EXPIRY = '24h'`, in seconds, as jose resolves it against the
issued-at time. -/
def TOKEN_EXPIRY_SECONDS : Nat := 24 * 60 * 60

/-- Modelled from the spec: `generateToken` — jose's `SignJWT` builds the
payload from the caller claims, the current time `now`, the 24-hour expiry
and a fresh token id `jti`, and signs it (§4.2: "builds a signed token with
header alg = HMAC-SHA256, payload = claims + issuedAt + expiresAt(now+24h)
+ a fresh random token id, signs with the process-wide secret key"). -/
def generateToken (mac : JWTPayload → List Nat) (now : Nat) (jti : String)
    (p : UserPayload) : SignedToken :=
  let payload : JWTPayload := ⟨p, now, now + TOKEN_EXPIRY_SECONDS, jti⟩
  ⟨payload, mac payload⟩

/-- Modelled from the spec: `verifyToken` — jose's `jwtVerify` validates
the signature against the same key and rejects expired tokens; any failure
is caught and folded into `none` (§4.2: "validates signature, decodes
payload, rejects if expired or signature mismatch ... all folded into one
opaque invalid result").  A token is expired when the current time has
reached `expiresAt`. -/
def verifyToken (mac : JWTPayload → List Nat) (now : Nat) (t : SignedToken) :
    Option UserPayload :=
  if t.sig = mac t.payload ∧ now < t.payload.expiresAt then some t.payload.user
  else none

theorem startsWithBcrypt_eq_false (cs : List Char) (h : '$' ∉ cs) :
    startsWithBcrypt cs = false := by
  rcases cs with _ | ⟨c1, _ | ⟨c2, r⟩⟩
  · rfl
  · rfl
  · have hc1 : c1 ≠ '$' := fun hh => h (hh ▸ List.mem_cons_self _ _)
    unfold startsWithBcrypt
    simp [hc1]

/-- Claim C1: the credential persisted by the OTP route's `changePassword`
is the route-local unsalted SHA-256 hex digest, which contains no `$`
separator; every credential produced by the Password Hashing Service's
`hashPassword` contains the `$` separator of the §4.1 `salt$derivedKey`
format, so the persisted value never equals any output of the service.
This refutes the claim that `changePassword` stores `hash(newSecret)` in
the §4.1 format and exhibits the divergence as a property of the code. -/
theorem claim1_changePassword_stored_format (digest : List Nat → List Nat)
    (pbkdf2 : PBKDF2Fun) (salt : List Nat) (newPassword secret : String) :
    '$' ∉ (OtpRoute.hashPassword digest newPassword).data
    ∧ '$' ∈ (hashPassword pbkdf2 salt secret).data
    ∧ OtpRoute.hashPassword digest newPassword ≠ hashPassword pbkdf2 salt secret := by
  have h1 : '$' ∉ (OtpRoute.hashPassword digest newPassword).data :=
    hexEncodeChars_no_dollar _
  have h2 : '$' ∈ (hashPassword pbkdf2 salt secret).data :=
    List.mem_append.mpr (Or.inr (List.mem_cons_self _ _))
  refine ⟨h1, h2, fun h => ?_⟩
  rw [h] at h1
  exact h1 h2

/-- Concrete instance of the C1 divergence at the failing input
`newSecret = "NewP@ss1"`. -/
theorem claim1_changePassword_stored_format_witness :
    '$' ∉ (OtpRoute.hashPassword (fun _ => [1, 2]) "NewP@ss1").data
    ∧ '$' ∈ (hashPassword (fun _ _ _ _ => [3]) [5] "x").data
    ∧ OtpRoute.hashPassword (fun _ => [1, 2]) "NewP@ss1"
        ≠ hashPassword (fun _ _ _ _ => [3]) [5] "x" :=
  claim1_changePassword_stored_format (fun _ => [1, 2]) (fun _ _ _ _ => [3])
    [5] "NewP@ss1" "x"

/-- Claim C3: a credential written by the OTP route's `changePassword`
(the route-local `hashPassword` of any new password) can never be verified
by the Password Hashing Service's `verifyPassword`, whatever password is
tried: the stored value contains no `$`, so the split yields no derived-key
part and verification returns `false`. -/
theorem claim3_verify_fails_on_route_hash (pbkdf2 : PBKDF2Fun)
    (digest : List Nat → List Nat) (p n : String) :
    verifyPassword pbkdf2 p (OtpRoute.hashPassword digest n) = false := by
  unfold verifyPassword OtpRoute.hashPassword
  have hnd : '$' ∉ hexEncodeChars (digest (utf8Bytes n)) :=
    hexEncodeChars_no_dollar _
  rw [show (⟨hexEncodeChars (digest (utf8Bytes n))⟩ : String).data
      = hexEncodeChars (digest (utf8Bytes n)) from rfl]
  rw [startsWithBcrypt_eq_false _ hnd]
  simp only [Bool.false_eq_true, if_false]
  rw [splitOn_of_no_sep '$' _ hnd]
  simp

/-- Claim C8: `verifyPassword` returns `false` (and, being a total
function into `Bool` that models every throwing site of the source's
`try` block as a `false` result, never throws) whenever the stored value
is legacy bcrypt-format (prefix `$2`) or malformed around the `$`
separator — an empty salt part, or a missing or empty derived-key part. -/
theorem claim8_verify_legacy_malformed (pbkdf2 : PBKDF2Fun)
    (secret stored : String)
    (h : startsWithBcrypt stored.data = true
      ∨ (splitOn '$' stored.data).headD [] = []
      ∨ ((splitOn '$' stored.data).drop 1).headD [] = []) :
    verifyPassword pbkdf2 secret stored = false := by
  unfold verifyPassword
  by_cases hb : startsWithBcrypt stored.data = true
  · rw [hb]; simp
  · rw [Bool.not_eq_true] at hb
    rw [hb]
    simp only [Bool.false_eq_true, if_false]
    rcases h with h | h | h
    · exact absurd h (by rw [hb]; simp)
    · rcases hs : splitOn '$' stored.data with _ | ⟨saltHex, rest⟩
      · rfl
      · rw [hs] at h
        simp only [List.headD_cons] at h
        subst h
        simp
    · rcases hs : splitOn '$' stored.data with _ | ⟨saltHex, rest⟩
      · rfl
      · rw [hs] at h
        simp only [List.drop_succ_cons, List.drop_zero] at h
        simp only []
        rw [show rest.headD [] = [] from h]
        simp

/-- The C8 property at a concrete legacy hash and a concrete malformed
(separator-free) hash. -/
theorem claim8_verify_legacy_malformed_witness :
    verifyPassword (fun _ _ _ _ => [3]) "pw" "$2b$10$abcdef" = false
    ∧ verifyPassword (fun _ _ _ _ => [3]) "pw" "deadbeef" = false :=
  ⟨claim8_verify_legacy_malformed (fun _ _ _ _ => [3]) "pw" "$2b$10$abcdef"
      (Or.inl (by decide)),
    claim8_verify_legacy_malformed (fun _ _ _ _ => [3]) "pw" "deadbeef"
      (Or.inr (Or.inr (by decide)))⟩

theorem isEmpty_false_of_ne_nil {α : Type} (l : List α) (h : l ≠ []) :
    l.isEmpty = false := by
  cases l with
  | nil => exact absurd rfl h
  | cons a l => rfl

theorem startsWithBcrypt_cons_ne (c : Char) (rest : List Char) (h : c ≠ '$') :
    startsWithBcrypt (c :: rest) = false := by
  rcases rest with _ | ⟨c2, r⟩
  · rfl
  · unfold startsWithBcrypt
    simp [h]

/-- `verifyPassword` on a well-formed `saltHex$hashHex` value (nonempty
byte-valued salt, nonempty derived key) reduces to comparing the
recomputed derived key's hex encoding with the stored one. -/
theorem verifyPassword_on_format (pbkdf2 : PBKDF2Fun) (password : String)
    (salt dk : List Nat) (hsne : salt ≠ []) (hsb : ∀ b ∈ salt, b < 256)
    (hdk : dk ≠ []) :
    verifyPassword pbkdf2 password ⟨hexEncodeChars salt ++ '$' :: hexEncodeChars dk⟩
      = (hexEncodeChars (pbkdf2 (utf8Bytes password) salt 100000 256)
          == hexEncodeChars dk) := by
  rcases hdsalt : salt with _ | ⟨b, bs⟩
  · exact absurd hdsalt hsne
  rcases hddk : dk with _ | ⟨b2, bs2⟩
  · exact absurd hddk hdk
  rw [← hdsalt, ← hddk]
  have hb : b < 256 := hsb b (hdsalt ▸ List.mem_cons_self b bs)
  have hencS_cons : hexEncodeChars salt
      = Nat.digitChar (b / 16) :: Nat.digitChar (b % 16) :: hexEncodeChars bs := by
    rw [hdsalt]; exact hexEncodeChars_byte_cons b bs hb
  have hencS_nd : '$' ∉ hexEncodeChars salt := hexEncodeChars_no_dollar salt
  have hencD_nd : '$' ∉ hexEncodeChars dk := hexEncodeChars_no_dollar dk
  have hencS_ne : hexEncodeChars salt ≠ [] := by
    rw [hencS_cons]; simp
  have hencD_ne : hexEncodeChars dk ≠ [] := by
    rw [hddk]; exact hexEncodeChars_ne_nil b2 bs2
  unfold verifyPassword
  have hdata : (⟨hexEncodeChars salt ++ '$' :: hexEncodeChars dk⟩ : String).data
      = hexEncodeChars salt ++ '$' :: hexEncodeChars dk := rfl
  rw [hdata]
  have hsw : startsWithBcrypt (hexEncodeChars salt ++ '$' :: hexEncodeChars dk)
      = false := by
    rw [hencS_cons]
    exact startsWithBcrypt_cons_ne _ _ (digitChar_ne_dollar _)
  rw [hsw]
  simp only [Bool.false_eq_true, if_false]
  rw [splitOn_append_sep '$' _ _ hencS_nd, splitOn_of_no_sep '$' _ hencD_nd]
  simp only [List.headD_cons]
  rw [isEmpty_false_of_ne_nil _ hencS_ne, isEmpty_false_of_ne_nil _ hencD_ne]
  simp only [Bool.or_self, Bool.false_eq_true, if_false]
  rw [hexDecodePairs_hexEncode salt hsne hsb]

/-- Claim C4: for every secret and every 16-byte salt drawn by `hash`,
`verify(s, hash(s))` is `true`; and for distinct secrets, under the
claim's own no-collision proviso (the two PBKDF2 derivations differ),
`verify(s2, hash(s1))` is `false`.  The byte-validity and length
hypotheses state what `crypto.getRandomValues(new Uint8Array(16))` and a
256-bit `deriveBits` result guarantee about the abstracted primitive. -/
theorem claim4_verify_hash_roundtrip (pbkdf2 : PBKDF2Fun) (salt : List Nat)
    (s1 s2 : String) (hlen : salt.length = 16) (hsb : ∀ b ∈ salt, b < 256)
    (hd1len : (pbkdf2 (utf8Bytes s1) salt 100000 256).length = 32)
    (hd1b : ∀ b ∈ pbkdf2 (utf8Bytes s1) salt 100000 256, b < 256)
    (hd2b : ∀ b ∈ pbkdf2 (utf8Bytes s2) salt 100000 256, b < 256) :
    verifyPassword pbkdf2 s1 (hashPassword pbkdf2 salt s1) = true
    ∧ (pbkdf2 (utf8Bytes s2) salt 100000 256
          ≠ pbkdf2 (utf8Bytes s1) salt 100000 256 →
        verifyPassword pbkdf2 s2 (hashPassword pbkdf2 salt s1) = false) := by
  have hsne : salt ≠ [] := by
    intro h; rw [h] at hlen; simp at hlen
  have hd1ne : pbkdf2 (utf8Bytes s1) salt 100000 256 ≠ [] := by
    intro h; rw [h] at hd1len; simp at hd1len
  have hfmt1 := verifyPassword_on_format pbkdf2 s1 salt
    (pbkdf2 (utf8Bytes s1) salt 100000 256) hsne hsb hd1ne
  have hfmt2 := verifyPassword_on_format pbkdf2 s2 salt
    (pbkdf2 (utf8Bytes s1) salt 100000 256) hsne hsb hd1ne
  have hsh : hashPassword pbkdf2 salt s1
      = ⟨hexEncodeChars salt
          ++ '$' :: hexEncodeChars (pbkdf2 (utf8Bytes s1) salt 100000 256)⟩ := rfl
  constructor
  · rw [hsh, hfmt1]
    exact beq_self_eq_true _
  · intro hne
    rw [hsh, hfmt2]
    apply beq_eq_false_iff_ne.mpr
    intro he
    exact hne ((hexEncodeChars_injOn _ _ hd1b hd2b hd1ne he.symm).symm)

/-- The C4 round trip evaluated at a concrete salt, concrete secrets and a
concrete (collision-free on these inputs) derivation function. -/
theorem claim4_verify_hash_roundtrip_witness :
    verifyPassword (fun pw _ _ _ => List.replicate 31 0 ++ [pw.headD 0 % 256]) "a"
        (hashPassword (fun pw _ _ _ => List.replicate 31 0 ++ [pw.headD 0 % 256])
          (List.replicate 16 7) "a") = true
    ∧ verifyPassword (fun pw _ _ _ => List.replicate 31 0 ++ [pw.headD 0 % 256]) "b"
        (hashPassword (fun pw _ _ _ => List.replicate 31 0 ++ [pw.headD 0 % 256])
          (List.replicate 16 7) "a") = false := by
  have h := claim4_verify_hash_roundtrip
    (fun pw _ _ _ => List.replicate 31 0 ++ [pw.headD 0 % 256])
    (List.replicate 16 7) "a" "b" (by decide) (by decide) (by decide) (by decide)
    (by decide)
  exact ⟨h.1, h.2 (by decide)⟩

/-- Claim C9: verifying the token produced by `generateToken` returns the
input claims (the added `issuedAt`/`expiresAt`/`tokenId` live alongside
them in the payload) whenever the current time is before `expiresAt`
(= issue time + 24h), and returns the invalid result `none` once the
current time reaches the expiry threshold. -/
theorem claim9_token_roundtrip (mac : JWTPayload → List Nat)
    (now now2 : Nat) (jti : String) (p : UserPayload) :
    (now2 < now + TOKEN_EXPIRY_SECONDS →
      verifyToken mac now2 (generateToken mac now jti p) = some p)
    ∧ (now + TOKEN_EXPIRY_SECONDS ≤ now2 →
      verifyToken mac now2 (generateToken mac now jti p) = none) := by
  constructor
  · intro hlt
    unfold verifyToken generateToken
    rw [if_pos ⟨rfl, hlt⟩]
  · intro hge
    unfold verifyToken generateToken
    rw [if_neg]
    intro hcontra
    have := hcontra.2
    simp only [] at this
    omega

/-- The C9 round trip at a concrete signature primitive, payload and pair
of verification times (one inside, one past the 24-hour window). -/
theorem claim9_token_roundtrip_witness :
    verifyToken (fun _ => [9]) 100 (generateToken (fun _ => [9]) 0 "jti-1"
        ⟨1, "info@tdlogistics.co", "admin", "Admin"⟩)
      = some ⟨1, "info@tdlogistics.co", "admin", "Admin"⟩
    ∧ verifyToken (fun _ => [9]) 86400 (generateToken (fun _ => [9]) 0 "jti-1"
        ⟨1, "info@tdlogistics.co", "admin", "Admin"⟩)
      = none := by
  have h := claim9_token_roundtrip (fun _ => [9]) 0 100 "jti-1"
    ⟨1, "info@tdlogistics.co", "admin", "Admin"⟩
  have h2 := claim9_token_roundtrip (fun _ => [9]) 0 86400 "jti-1"
    ⟨1, "info@tdlogistics.co", "admin", "Admin"⟩
  exact ⟨h.1 (by decide), h2.2 (by decide)⟩

namespace OtpRoute

theorem storeGet_storeSet_self (s : OTPStore) (k : String) (v : OTPEntry) :
    storeGet (storeSet s k v) k = some v := by
  unfold storeGet storeSet
  simp

theorem storeGet_storeDelete_self (s : OTPStore) (k : String) :
    storeGet (storeDelete s k) k = none := by
  unfold storeGet storeDelete
  simp

theorem otpRequest_admin (now : Nat) (code : String) (s : OTPStore) :
    otpRequest now true ADMIN_EMAIL code s
      = (.okRequested, storeSet s ADMIN_EMAIL ⟨code, now + 10 * 60 * 1000, false⟩) := by
  unfold otpRequest
  rw [if_neg (by decide), if_neg (by decide), if_neg (by decide)]

theorem otpVerify_found (now : Nat) (otp : String) (s : OTPStore)
    (entry : OTPEntry) (hget : storeGet s ADMIN_EMAIL = some entry)
    (hotp : otp ≠ "") :
    otpVerify now true ADMIN_EMAIL otp s
      = (if now > entry.expires then (.expired, storeDelete s ADMIN_EMAIL)
        else if entry.otp ≠ otp then (.codeMismatch, s)
        else (.okVerified,
          storeSet s ADMIN_EMAIL ⟨entry.otp, entry.expires, true⟩)) := by
  unfold otpVerify
  rw [if_neg (by decide), if_neg (by decide), if_neg (by decide), if_neg hotp, hget]

theorem otpVerify_nofound (now : Nat) (otp : String) (s : OTPStore)
    (hget : storeGet s ADMIN_EMAIL = none) (hotp : otp ≠ "") :
    otpVerify now true ADMIN_EMAIL otp s = (.noChallenge, s) := by
  unfold otpVerify
  rw [if_neg (by decide), if_neg (by decide), if_neg (by decide), if_neg hotp, hget]

theorem otpChangePassword_found (digest : List Nat → List Nat) (now : Nat)
    (otp newPassword : String) (s : OTPStore) (entry : OTPEntry)
    (hget : storeGet s ADMIN_EMAIL = some entry) (hotp : otp ≠ "")
    (hpw : newPassword ≠ "") :
    otpChangePassword digest now true ADMIN_EMAIL otp newPassword s
      = (if entry.verified = false then (.notVerified, s, [])
        else if now > entry.expires then (.expired, storeDelete s ADMIN_EMAIL, [])
        else if entry.otp ≠ otp then (.codeMismatch, s, [])
        else (.okChanged, storeDelete s ADMIN_EMAIL,
          [⟨"users", hashPassword digest newPassword⟩,
           ⟨"admin_users", hashPassword digest newPassword⟩])) := by
  unfold otpChangePassword
  rw [if_neg (by decide), if_neg (by decide), if_neg (by decide),
    if_neg (not_or.mpr ⟨hotp, hpw⟩), hget]

theorem otpChangePassword_nofound (digest : List Nat → List Nat) (now : Nat)
    (otp newPassword : String) (s : OTPStore)
    (hget : storeGet s ADMIN_EMAIL = none) (hotp : otp ≠ "")
    (hpw : newPassword ≠ "") :
    otpChangePassword digest now true ADMIN_EMAIL otp newPassword s
      = (.notVerified, s, []) := by
  unfold otpChangePassword
  rw [if_neg (by decide), if_neg (by decide), if_neg (by decide),
    if_neg (not_or.mpr ⟨hotp, hpw⟩), hget]

end OtpRoute

/-- Claim C5: `request` issues code `C`; a timely `verify` with `C`
succeeds and flips the entry to verified; a timely `changePassword` with
`C` succeeds, updates the credential and deletes the entry; a second
`changePassword` with the same code (at any later time) fails with the
NotVerified/NoChallenge response and issues no credential update. -/
theorem claim5_lifecycle (digest : List Nat → List Nat) (r : Nat)
    (pw : String) (t0 t1 t2 t3 : Nat) (s0 : OtpRoute.OTPStore) (C : String)
    (s1 s2 : OtpRoute.OTPStore) (hC : C = OtpRoute.generateOTP r)
    (hs1 : s1 = (OtpRoute.otpRequest t0 true OtpRoute.ADMIN_EMAIL C s0).2)
    (hs2 : s2 = OtpRoute.storeSet s1 OtpRoute.ADMIN_EMAIL
      ⟨C, t0 + 10 * 60 * 1000, true⟩)
    (h1 : t1 ≤ t0 + 10 * 60 * 1000) (h2 : t2 ≤ t0 + 10 * 60 * 1000)
    (hpw : pw ≠ "") :
    OtpRoute.otpVerify t1 true OtpRoute.ADMIN_EMAIL C s1
      = (.okVerified, s2)
    ∧ OtpRoute.otpChangePassword digest t2 true OtpRoute.ADMIN_EMAIL C pw s2
      = (.okChanged, OtpRoute.storeDelete s2 OtpRoute.ADMIN_EMAIL,
          [⟨"users", OtpRoute.hashPassword digest pw⟩,
            ⟨"admin_users", OtpRoute.hashPassword digest pw⟩])
    ∧ OtpRoute.storeGet (OtpRoute.storeDelete s2 OtpRoute.ADMIN_EMAIL)
        OtpRoute.ADMIN_EMAIL = none
    ∧ OtpRoute.otpChangePassword digest t3 true OtpRoute.ADMIN_EMAIL C pw
        (OtpRoute.storeDelete s2 OtpRoute.ADMIN_EMAIL)
      = (.notVerified, OtpRoute.storeDelete s2 OtpRoute.ADMIN_EMAIL, []) := by
  have hCne : C ≠ "" := hC ▸ generateOTP_ne_empty r
  have hget1 : OtpRoute.storeGet s1 OtpRoute.ADMIN_EMAIL
      = some ⟨C, t0 + 10 * 60 * 1000, false⟩ := by
    rw [hs1, OtpRoute.otpRequest_admin]
    exact OtpRoute.storeGet_storeSet_self s0 _ _
  have hget2 : OtpRoute.storeGet s2 OtpRoute.ADMIN_EMAIL
      = some ⟨C, t0 + 10 * 60 * 1000, true⟩ := by
    rw [hs2]
    exact OtpRoute.storeGet_storeSet_self s1 _ _
  have hgetdel : OtpRoute.storeGet (OtpRoute.storeDelete s2 OtpRoute.ADMIN_EMAIL)
      OtpRoute.ADMIN_EMAIL = none := OtpRoute.storeGet_storeDelete_self s2 _
  refine ⟨?_, ?_, hgetdel, ?_⟩
  · rw [OtpRoute.otpVerify_found t1 C s1 _ hget1 hCne]
    rw [if_neg (by simp only []; omega), if_neg (by simp only []; exact fun h => h rfl)]
    rw [hs2]
  · rw [OtpRoute.otpChangePassword_found digest t2 C pw s2 _ hget2 hCne hpw]
    rw [if_neg (by simp only []; exact fun h => Bool.noConfusion h),
      if_neg (by simp only []; omega), if_neg (by simp only []; exact fun h => h rfl)]
  · exact OtpRoute.otpChangePassword_nofound digest t3 C pw _ hgetdel hCne hpw

/-- The C5 lifecycle at concrete times, store and inputs. -/
theorem claim5_lifecycle_witness :
    OtpRoute.otpVerify 1 true OtpRoute.ADMIN_EMAIL (OtpRoute.generateOTP 0)
        (OtpRoute.otpRequest 0 true OtpRoute.ADMIN_EMAIL
          (OtpRoute.generateOTP 0) OtpRoute.emptyStore).2
      = (.okVerified, OtpRoute.storeSet
          (OtpRoute.otpRequest 0 true OtpRoute.ADMIN_EMAIL
            (OtpRoute.generateOTP 0) OtpRoute.emptyStore).2
          OtpRoute.ADMIN_EMAIL ⟨OtpRoute.generateOTP 0, 0 + 10 * 60 * 1000, true⟩)
    ∧ OtpRoute.otpChangePassword (fun _ => [1]) 2 true OtpRoute.ADMIN_EMAIL
        (OtpRoute.generateOTP 0) "NewP@ss1"
        (OtpRoute.storeSet
          (OtpRoute.otpRequest 0 true OtpRoute.ADMIN_EMAIL
            (OtpRoute.generateOTP 0) OtpRoute.emptyStore).2
          OtpRoute.ADMIN_EMAIL ⟨OtpRoute.generateOTP 0, 0 + 10 * 60 * 1000, true⟩)
      = (.okChanged, OtpRoute.storeDelete
          (OtpRoute.storeSet
            (OtpRoute.otpRequest 0 true OtpRoute.ADMIN_EMAIL
              (OtpRoute.generateOTP 0) OtpRoute.emptyStore).2
            OtpRoute.ADMIN_EMAIL ⟨OtpRoute.generateOTP 0, 0 + 10 * 60 * 1000, true⟩)
          OtpRoute.ADMIN_EMAIL,
          [⟨"users", OtpRoute.hashPassword (fun _ => [1]) "NewP@ss1"⟩,
            ⟨"admin_users", OtpRoute.hashPassword (fun _ => [1]) "NewP@ss1"⟩])
    ∧ OtpRoute.storeGet (OtpRoute.storeDelete
          (OtpRoute.storeSet
            (OtpRoute.otpRequest 0 true OtpRoute.ADMIN_EMAIL
              (OtpRoute.generateOTP 0) OtpRoute.emptyStore).2
            OtpRoute.ADMIN_EMAIL ⟨OtpRoute.generateOTP 0, 0 + 10 * 60 * 1000, true⟩)
          OtpRoute.ADMIN_EMAIL) OtpRoute.ADMIN_EMAIL = none
    ∧ OtpRoute.otpChangePassword (fun _ => [1]) 999999 true OtpRoute.ADMIN_EMAIL
        (OtpRoute.generateOTP 0) "NewP@ss1"
        (OtpRoute.storeDelete
          (OtpRoute.storeSet
            (OtpRoute.otpRequest 0 true OtpRoute.ADMIN_EMAIL
              (OtpRoute.generateOTP 0) OtpRoute.emptyStore).2
            OtpRoute.ADMIN_EMAIL ⟨OtpRoute.generateOTP 0, 0 + 10 * 60 * 1000, true⟩)
          OtpRoute.ADMIN_EMAIL)
      = (.notVerified, OtpRoute.storeDelete
          (OtpRoute.storeSet
            (OtpRoute.otpRequest 0 true OtpRoute.ADMIN_EMAIL
              (OtpRoute.generateOTP 0) OtpRoute.emptyStore).2
            OtpRoute.ADMIN_EMAIL ⟨OtpRoute.generateOTP 0, 0 + 10 * 60 * 1000, true⟩)
          OtpRoute.ADMIN_EMAIL, []) :=
  claim5_lifecycle (fun _ => [1]) 0 "NewP@ss1" 0 1 2 999999
    OtpRoute.emptyStore (OtpRoute.generateOTP 0) _ _ rfl rfl rfl
    (by omega) (by omega) (by decide)

/-- Claim C6: a second `request` unconditionally replaces the prior
challenge with a fresh unverified entry holding the new code, so (when the
two drawn codes differ) the first issued code now fails `verify` with
CodeMismatch while the second code verifies successfully. -/
theorem claim6_rerequest_invalidates (r1 r2 t0 t1 tv : Nat)
    (s0 s2 : OtpRoute.OTPStore)
    (hneq : OtpRoute.generateOTP r1 ≠ OtpRoute.generateOTP r2)
    (hs2 : s2 = (OtpRoute.otpRequest t1 true OtpRoute.ADMIN_EMAIL
      (OtpRoute.generateOTP r2)
      (OtpRoute.otpRequest t0 true OtpRoute.ADMIN_EMAIL
        (OtpRoute.generateOTP r1) s0).2).2)
    (hv : tv ≤ t1 + 10 * 60 * 1000) :
    OtpRoute.storeGet s2 OtpRoute.ADMIN_EMAIL
      = some ⟨OtpRoute.generateOTP r2, t1 + 10 * 60 * 1000, false⟩
    ∧ (OtpRoute.otpVerify tv true OtpRoute.ADMIN_EMAIL
        (OtpRoute.generateOTP r1) s2).1 = .codeMismatch
    ∧ OtpRoute.otpVerify tv true OtpRoute.ADMIN_EMAIL
        (OtpRoute.generateOTP r2) s2
      = (.okVerified, OtpRoute.storeSet s2 OtpRoute.ADMIN_EMAIL
          ⟨OtpRoute.generateOTP r2, t1 + 10 * 60 * 1000, true⟩) := by
  have hget : OtpRoute.storeGet s2 OtpRoute.ADMIN_EMAIL
      = some ⟨OtpRoute.generateOTP r2, t1 + 10 * 60 * 1000, false⟩ := by
    rw [hs2, OtpRoute.otpRequest_admin]
    exact OtpRoute.storeGet_storeSet_self _ _ _
  refine ⟨hget, ?_, ?_⟩
  · rw [OtpRoute.otpVerify_found tv _ s2 _ hget (generateOTP_ne_empty r1)]
    rw [if_neg (by simp only []; omega),
      if_pos (by simp only []; exact Ne.symm hneq)]
  · rw [OtpRoute.otpVerify_found tv _ s2 _ hget (generateOTP_ne_empty r2)]
    rw [if_neg (by simp only []; omega), if_neg (by simp only []; exact fun h => h rfl)]

/-- The C6 property at concrete random draws 0 and 1 (codes 100000 and
100001), concrete times and the empty initial store. -/
theorem claim6_rerequest_invalidates_witness :
    OtpRoute.storeGet
      ((OtpRoute.otpRequest 50 true OtpRoute.ADMIN_EMAIL
        (OtpRoute.generateOTP 1)
        (OtpRoute.otpRequest 0 true OtpRoute.ADMIN_EMAIL
          (OtpRoute.generateOTP 0) OtpRoute.emptyStore).2).2)
      OtpRoute.ADMIN_EMAIL
      = some ⟨OtpRoute.generateOTP 1, 50 + 10 * 60 * 1000, false⟩
    ∧ (OtpRoute.otpVerify 60 true OtpRoute.ADMIN_EMAIL (OtpRoute.generateOTP 0)
        ((OtpRoute.otpRequest 50 true OtpRoute.ADMIN_EMAIL
          (OtpRoute.generateOTP 1)
          (OtpRoute.otpRequest 0 true OtpRoute.ADMIN_EMAIL
            (OtpRoute.generateOTP 0) OtpRoute.emptyStore).2).2)).1
      = .codeMismatch
    ∧ OtpRoute.otpVerify 60 true OtpRoute.ADMIN_EMAIL (OtpRoute.generateOTP 1)
        ((OtpRoute.otpRequest 50 true OtpRoute.ADMIN_EMAIL
          (OtpRoute.generateOTP 1)
          (OtpRoute.otpRequest 0 true OtpRoute.ADMIN_EMAIL
            (OtpRoute.generateOTP 0) OtpRoute.emptyStore).2).2)
      = (.okVerified, OtpRoute.storeSet
          ((OtpRoute.otpRequest 50 true OtpRoute.ADMIN_EMAIL
            (OtpRoute.generateOTP 1)
            (OtpRoute.otpRequest 0 true OtpRoute.ADMIN_EMAIL
              (OtpRoute.generateOTP 0) OtpRoute.emptyStore).2).2)
          OtpRoute.ADMIN_EMAIL
          ⟨OtpRoute.generateOTP 1, 50 + 10 * 60 * 1000, true⟩) :=
  claim6_rerequest_invalidates 0 1 0 50 60 OtpRoute.emptyStore _
    (by decide) rfl (by omega)

/-- Counterexample to claim C7 as stated: with a live challenge holding
code `"123456"`, a `verify` call with the (different) code `""` does not
fail with CodeMismatch — the handler's falsy guard `if (!otp)` rejects the
empty string first with the missing-code validation response (the entry is
still left unchanged). -/
theorem claim7_counterexample :
    (OtpRoute.otpVerify 500 true OtpRoute.ADMIN_EMAIL ""
        (fun k => if k = OtpRoute.ADMIN_EMAIL
          then some ⟨"123456", 1000, false⟩ else none)).1
      = OtpRoute.OtpResult.otpRequired
    ∧ (OtpRoute.otpVerify 500 true OtpRoute.ADMIN_EMAIL ""
        (fun k => if k = OtpRoute.ADMIN_EMAIL
          then some ⟨"123456", 1000, false⟩ else none)).1
      ≠ OtpRoute.OtpResult.codeMismatch := by
  constructor
  · rfl
  · intro h
    exact OtpRoute.OtpResult.noConfusion (h.symm.trans rfl)

/-- Claim C7 as amended: for a live challenge with code `C`, a `verify`
call with a nonempty code different from `C` fails with CodeMismatch and
returns the store untouched (same entry, still unverified), and a
subsequent `verify` with the correct `C` still succeeds. -/
theorem claim7_wrong_code_frame (now : Nat) (c : String)
    (s : OtpRoute.OTPStore) (entry : OtpRoute.OTPEntry)
    (hget : OtpRoute.storeGet s OtpRoute.ADMIN_EMAIL = some entry)
    (hlive : now ≤ entry.expires) (hc : c ≠ "") (hcm : c ≠ entry.otp)
    (hotpne : entry.otp ≠ "") :
    OtpRoute.otpVerify now true OtpRoute.ADMIN_EMAIL c s = (.codeMismatch, s)
    ∧ OtpRoute.otpVerify now true OtpRoute.ADMIN_EMAIL entry.otp s
      = (.okVerified, OtpRoute.storeSet s OtpRoute.ADMIN_EMAIL
          ⟨entry.otp, entry.expires, true⟩) := by
  constructor
  · rw [OtpRoute.otpVerify_found now c s entry hget hc]
    rw [if_neg (by omega), if_pos (Ne.symm hcm)]
  · rw [OtpRoute.otpVerify_found now entry.otp s entry hget hotpne]
    rw [if_neg (by omega), if_neg (fun h => h rfl)]

/-- The amended C7 at a concrete live entry, wrong code `"000000"` and
correct code `"123456"`. -/
theorem claim7_wrong_code_frame_witness :
    OtpRoute.otpVerify 500 true OtpRoute.ADMIN_EMAIL "000000"
        (fun k => if k = OtpRoute.ADMIN_EMAIL
          then some ⟨"123456", 1000, false⟩ else none)
      = (.codeMismatch,
          fun k => if k = OtpRoute.ADMIN_EMAIL
            then some ⟨"123456", 1000, false⟩ else none)
    ∧ OtpRoute.otpVerify 500 true OtpRoute.ADMIN_EMAIL "123456"
        (fun k => if k = OtpRoute.ADMIN_EMAIL
          then some ⟨"123456", 1000, false⟩ else none)
      = (.okVerified, OtpRoute.storeSet
          (fun k => if k = OtpRoute.ADMIN_EMAIL
            then some ⟨"123456", 1000, false⟩ else none)
          OtpRoute.ADMIN_EMAIL ⟨"123456", 1000, true⟩) :=
  claim7_wrong_code_frame 500 "000000"
    (fun k => if k = OtpRoute.ADMIN_EMAIL
      then some ⟨"123456", 1000, false⟩ else none)
    ⟨"123456", 1000, false⟩ (by simp [OtpRoute.storeGet]) (by decide)
    (by decide) (by decide) (by decide)

/-- Counterexample to claim C2 as stated: for an expired challenge that
was never verified (`verified = false`), a `changePassword` call does not
fail with Expired and does not delete the entry — the handler checks
`!stored.verified` before the expiry check, so it fails with NotVerified
and the expired entry stays in the store. -/
theorem claim2_counterexample :
    (OtpRoute.otpChangePassword (fun _ => []) 2000 true OtpRoute.ADMIN_EMAIL
        "123456" "NewP@ss1"
        (fun k => if k = OtpRoute.ADMIN_EMAIL
          then some ⟨"123456", 1000, false⟩ else none)).1
      = OtpRoute.OtpResult.notVerified
    ∧ (OtpRoute.otpChangePassword (fun _ => []) 2000 true OtpRoute.ADMIN_EMAIL
        "123456" "NewP@ss1"
        (fun k => if k = OtpRoute.ADMIN_EMAIL
          then some ⟨"123456", 1000, false⟩ else none)).1
      ≠ OtpRoute.OtpResult.expired
    ∧ OtpRoute.storeGet
        (OtpRoute.otpChangePassword (fun _ => []) 2000 true OtpRoute.ADMIN_EMAIL
          "123456" "NewP@ss1"
          (fun k => if k = OtpRoute.ADMIN_EMAIL
            then some ⟨"123456", 1000, false⟩ else none)).2.1
        OtpRoute.ADMIN_EMAIL
      = some ⟨"123456", 1000, false⟩ := by
  refine ⟨rfl, ?_, rfl⟩
  intro h
  exact OtpRoute.OtpResult.noConfusion (h.symm.trans rfl)

/-- Claim C2 as amended: once past `expiresAt`, a `verify` call (with a
code supplied) fails with Expired and deletes the entry; a
`changePassword` call (with code and new password supplied) fails with
Expired and deletes the entry when the entry is verified, but fails with
NotVerified and leaves the expired entry in place when it is unverified;
in every case a following `request` installs a brand-new unverified
entry. -/
theorem claim2_expiry_behavior (digest : List Nat → List Nat) (now : Nat)
    (c pw : String) (s : OtpRoute.OTPStore) (entry : OtpRoute.OTPEntry)
    (hget : OtpRoute.storeGet s OtpRoute.ADMIN_EMAIL = some entry)
    (hexp : now > entry.expires) (hc : c ≠ "") (hpw : pw ≠ "") :
    OtpRoute.otpVerify now true OtpRoute.ADMIN_EMAIL c s
      = (.expired, OtpRoute.storeDelete s OtpRoute.ADMIN_EMAIL)
    ∧ (entry.verified = true →
        OtpRoute.otpChangePassword digest now true OtpRoute.ADMIN_EMAIL c pw s
          = (.expired, OtpRoute.storeDelete s OtpRoute.ADMIN_EMAIL, []))
    ∧ (entry.verified = false →
        OtpRoute.otpChangePassword digest now true OtpRoute.ADMIN_EMAIL c pw s
          = (.notVerified, s, []))
    ∧ ∀ t2 c2, OtpRoute.storeGet
        (OtpRoute.otpRequest t2 true OtpRoute.ADMIN_EMAIL c2 s).2
        OtpRoute.ADMIN_EMAIL = some ⟨c2, t2 + 10 * 60 * 1000, false⟩ := by
  refine ⟨?_, ?_, ?_, ?_⟩
  · rw [OtpRoute.otpVerify_found now c s entry hget hc, if_pos hexp]
  · intro hv
    rw [OtpRoute.otpChangePassword_found digest now c pw s entry hget hc hpw]
    rw [if_neg (by rw [hv]; exact fun h => Bool.noConfusion h), if_pos hexp]
  · intro hv
    rw [OtpRoute.otpChangePassword_found digest now c pw s entry hget hc hpw]
    rw [if_pos hv]
  · intro t2 c2
    rw [OtpRoute.otpRequest_admin]
    exact OtpRoute.storeGet_storeSet_self s _ _

/-- The amended C2 evaluated at a concrete expired verified entry and at a
concrete following request. -/
theorem claim2_expiry_behavior_witness :
    OtpRoute.otpVerify 2000 true OtpRoute.ADMIN_EMAIL "111111"
        (fun k => if k = OtpRoute.ADMIN_EMAIL
          then some ⟨"111111", 1000, true⟩ else none)
      = (.expired, OtpRoute.storeDelete
          (fun k => if k = OtpRoute.ADMIN_EMAIL
            then some ⟨"111111", 1000, true⟩ else none) OtpRoute.ADMIN_EMAIL)
    ∧ OtpRoute.otpChangePassword (fun _ => [2]) 2000 true OtpRoute.ADMIN_EMAIL
        "111111" "NewP@ss1"
        (fun k => if k = OtpRoute.ADMIN_EMAIL
          then some ⟨"111111", 1000, true⟩ else none)
      = (.expired, OtpRoute.storeDelete
          (fun k => if k = OtpRoute.ADMIN_EMAIL
            then some ⟨"111111", 1000, true⟩ else none) OtpRoute.ADMIN_EMAIL, [])
    ∧ OtpRoute.storeGet
        (OtpRoute.otpRequest 3000 true OtpRoute.ADMIN_EMAIL "222222"
          (fun k => if k = OtpRoute.ADMIN_EMAIL
            then some ⟨"111111", 1000, true⟩ else none)).2
        OtpRoute.ADMIN_EMAIL
      = some ⟨"222222", 3000 + 10 * 60 * 1000, false⟩ := by
  have h := claim2_expiry_behavior (fun _ => [2]) 2000 "111111" "NewP@ss1"
    (fun k => if k = OtpRoute.ADMIN_EMAIL
      then some ⟨"111111", 1000, true⟩ else none)
    ⟨"111111", 1000, true⟩ (by simp [OtpRoute.storeGet]) (by decide)
    (by decide) (by decide)
  exact ⟨h.1, h.2.1 rfl, h.2.2.2 3000 "222222"⟩

/-- Counterexample to claim C10 as stated: a successful `changePassword`
issues two credential-update `execute` calls (one against `users`, one
against `admin_users`), not exactly one. -/
theorem claim10_counterexample :
    (OtpRoute.otpChangePassword (fun _ => [0]) 5 true OtpRoute.ADMIN_EMAIL
        "123456" "NewP@ss1"
        (fun k => if k = OtpRoute.ADMIN_EMAIL
          then some ⟨"123456", 10, true⟩ else none)).1
      = OtpRoute.OtpResult.okChanged
    ∧ (OtpRoute.otpChangePassword (fun _ => [0]) 5 true OtpRoute.ADMIN_EMAIL
        "123456" "NewP@ss1"
        (fun k => if k = OtpRoute.ADMIN_EMAIL
          then some ⟨"123456", 10, true⟩ else none)).2.2.length = 2
    ∧ (OtpRoute.otpChangePassword (fun _ => [0]) 5 true OtpRoute.ADMIN_EMAIL
        "123456" "NewP@ss1"
        (fun k => if k = OtpRoute.ADMIN_EMAIL
          then some ⟨"123456", 10, true⟩ else none)).2.2.length ≠ 1 := by
  refine ⟨rfl, rfl, ?_⟩
  intro h
  have : (2 : Nat) = 1 := (rfl : (OtpRoute.otpChangePassword (fun _ => [0]) 5
    true OtpRoute.ADMIN_EMAIL "123456" "NewP@ss1"
    (fun k => if k = OtpRoute.ADMIN_EMAIL
      then some ⟨"123456", 10, true⟩ else none)).2.2.length = 2).symm.trans h
  exact absurd this (by decide)

/-- Claim C10 as amended: every successful `changePassword` issues exactly
two credential-update calls — one `UPDATE` on the `users` table and one on
the `admin_users` fallback table, both writing the same hash — and no
failing call issues any. -/
theorem claim10_two_updates (digest : List Nat → List Nat) (now : Nat)
    (otp pw : String) (s : OtpRoute.OTPStore) (entry : OtpRoute.OTPEntry)
    (hget : OtpRoute.storeGet s OtpRoute.ADMIN_EMAIL = some entry)
    (hver : entry.verified = true) (hlive : now ≤ entry.expires)
    (hcode : entry.otp = otp) (hotp : otp ≠ "") (hpw : pw ≠ "") :
    OtpRoute.otpChangePassword digest now true OtpRoute.ADMIN_EMAIL otp pw s
      = (.okChanged, OtpRoute.storeDelete s OtpRoute.ADMIN_EMAIL,
          [⟨"users", OtpRoute.hashPassword digest pw⟩,
            ⟨"admin_users", OtpRoute.hashPassword digest pw⟩]) := by
  rw [OtpRoute.otpChangePassword_found digest now otp pw s entry hget hotp hpw]
  rw [if_neg (by rw [hver]; exact fun h => Bool.noConfusion h),
    if_neg (by omega), if_neg (fun h => h hcode)]

/-- The amended C10 at a concrete verified live entry. -/
theorem claim10_two_updates_witness :
    OtpRoute.otpChangePassword (fun _ => [0]) 5 true OtpRoute.ADMIN_EMAIL
        "123456" "NewP@ss2"
        (fun k => if k = OtpRoute.ADMIN_EMAIL
          then some ⟨"123456", 10, true⟩ else none)
      = (.okChanged, OtpRoute.storeDelete
          (fun k => if k = OtpRoute.ADMIN_EMAIL
            then some ⟨"123456", 10, true⟩ else none) OtpRoute.ADMIN_EMAIL,
          [⟨"users", OtpRoute.hashPassword (fun _ => [0]) "NewP@ss2"⟩,
            ⟨"admin_users", OtpRoute.hashPassword (fun _ => [0]) "NewP@ss2"⟩]) :=
  claim10_two_updates (fun _ => [0]) 5 "123456" "NewP@ss2"
    (fun k => if k = OtpRoute.ADMIN_EMAIL
      then some ⟨"123456", 10, true⟩ else none)
    ⟨"123456", 10, true⟩ (by simp [OtpRoute.storeGet]) rfl (by decide) rfl
    (by decide) (by decide)
